import Mathlib

/-! Verification of the loan-calculator app (`src/my-loan-app/src/App.jsx`).

The numeric core is shallowly embedded over `ℚ`: finite JavaScript doubles are
modeled as exact rationals, and the places where the code can observe
non-finiteness (the IRR solver's `isFinite` guard) use `JsNum`, which adds a
single `nonFinite` marker standing for NaN and the infinities (the solver only
branches on finiteness and all its comparisons return `false` on NaN, which is
the JS behaviour the marker reproduces). -/

/-- JavaScript number: a finite double (modeled exactly as a rational) or a
non-finite value (NaN / ±Infinity collapsed into one marker; the embedded code
never distinguishes them: it only tests `isFinite` and uses comparisons that
are `false` whenever one side is not finite, matching NaN semantics). -/
inductive JsNum where
  | fin (q : ℚ)
  | nonFinite
  deriving DecidableEq, Repr

namespace JsNum

/-- Addition; any operation touching a non-finite value stays non-finite. -/
def add : JsNum → JsNum → JsNum
  | fin a, fin b => fin (a + b)
  | _, _ => nonFinite

/-- Subtraction. -/
def sub : JsNum → JsNum → JsNum
  | fin a, fin b => fin (a - b)
  | _, _ => nonFinite

/-- Multiplication. -/
def mul : JsNum → JsNum → JsNum
  | fin a, fin b => fin (a * b)
  | _, _ => nonFinite

/-- Negation. -/
def neg : JsNum → JsNum
  | fin a => fin (-a)
  | nonFinite => nonFinite

/-- Division: division by exact zero is non-finite (JS gives ±Infinity or
NaN), otherwise exact rational division. -/
def div : JsNum → JsNum → JsNum
  | fin a, fin b => if b = 0 then nonFinite else fin (a / b)
  | _, _ => nonFinite

/-- `Math.pow` with a natural exponent (the only exponents the code uses are
the integer month counts).  `Math.pow(x, 0)` is `1` even for NaN. -/
def pow : JsNum → ℕ → JsNum
  | fin a, n => fin (a ^ n)
  | nonFinite, n => if n = 0 then fin 1 else nonFinite

/-- `Math.abs`. -/
def abs : JsNum → JsNum
  | fin a => fin |a|
  | nonFinite => nonFinite

/-- Strict `<`; `false` whenever a side is non-finite (NaN semantics, which is
what the solver's guards rely on). -/
def lt : JsNum → JsNum → Bool
  | fin a, fin b => a < b
  | _, _ => false

/-- `<=`; `false` whenever a side is non-finite. -/
def le : JsNum → JsNum → Bool
  | fin a, fin b => a ≤ b
  | _, _ => false

instance : Add JsNum := ⟨add⟩
instance : Sub JsNum := ⟨sub⟩
instance : Mul JsNum := ⟨mul⟩
instance : Div JsNum := ⟨div⟩
instance : Neg JsNum := ⟨neg⟩

end JsNum

/-- One row of the repayment schedule: the objects the `data` memo pushes into
`periods` (App.jsx lines 243-250, 262-269, 277-284). -/
structure Period where
  period_label : String
  remaining_balance : ℚ
  interest_payment : ℚ
  principal_payment : ℚ
  total_payment : ℚ
  cumulative_interest : ℚ
  deriving DecidableEq, Repr

/-- A loan record (the shape produced by `createLoan`, App.jsx lines 88-97).
`paymentFrequency` is a month count used as a loop stride and a `Math.pow`
month index; the UI only offers 1, 3, 6, 12, so it is embedded as `ℕ`.
`loanType` is kept as a raw string because the code branches on string
equality (anything that is not `"bullet"` takes the amortizing branch of the
generator). -/
structure Loan where
  id : ℤ
  name : String
  principal : ℚ
  totalMonths : ℚ
  annualRate : ℚ
  graceMonths : ℚ
  paymentFrequency : ℕ
  loanType : String
  deriving DecidableEq, Repr

/-- The loan factory `createLoan` (App.jsx lines 88-97). -/
def createLoan (id : ℤ) : Loan :=
  { id := id
    name := s!"Loan {id}"
    principal := 1000
    totalMonths := 60
    annualRate := 10
    graceMonths := 12
    paymentFrequency := 3
    loanType := "amortizing" }

/-- `periodRate = annualRate / 100 / periodsPerYear` with
`periodsPerYear = 12 / paymentFrequency` (App.jsx lines 253-254). -/
def periodRateOf (l : Loan) : ℚ :=
  let periodsPerYear : ℚ := 12 / (l.paymentFrequency : ℚ)
  l.annualRate / 100 / periodsPerYear

/-- `gracePeriods = Math.floor(graceMonths / paymentFrequency)` (App.jsx line
255).  The JS value is an integer used as a `for` bound, so a negative floor
runs the loop zero times; `Int.toNat` reproduces that. -/
def gracePeriodsOf (l : Loan) : ℕ :=
  (⌊l.graceMonths / (l.paymentFrequency : ℚ)⌋).toNat

/-- `amortPeriods = Math.ceil((totalMonths - graceMonths) / paymentFrequency)`
(App.jsx line 256), kept as an integer because the code also divides by it. -/
def amortPeriodsOf (l : Loan) : ℤ :=
  ⌈(l.totalMonths - l.graceMonths) / (l.paymentFrequency : ℚ)⌉

/-- `principalPerPeriod = principal / amortPeriods` (App.jsx line 257).  When
`amortPeriods = 0` JS produces ±Infinity while `ℚ` division yields `0`; the
value is only ever read inside a loop that runs `amortPeriods` times, so the
two semantics agree on every produced record. -/
def principalPerPeriodOf (l : Loan) : ℚ :=
  l.principal / (amortPeriodsOf l : ℚ)

/-- `totalPeriods = Math.ceil(totalMonths / monthsPerPayment)` (App.jsx line
233), as the `for` bound of the bullet loop. -/
def totalPeriodsOf (l : Loan) : ℕ :=
  (⌈l.totalMonths / (l.paymentFrequency : ℚ)⌉).toNat

/-- `interestPerPeriod = principal * (annualRate / 100) * (monthsPerPayment / 12)`
(App.jsx line 240 and line 52). -/
def interestPerPeriodOf (l : Loan) : ℚ :=
  l.principal * (l.annualRate / 100) * ((l.paymentFrequency : ℚ) / 12)

/-- The bullet branch of the schedule loop (App.jsx lines 241-251): argument
order is current period `p`, remaining iterations, accumulated
`cumulativeInterest`. -/
def bulletLoop (principal interestPerPeriod : ℚ) (totalPeriods : ℕ) :
    ℕ → ℕ → ℚ → List Period
  | _, 0, _ => []
  | p, rem + 1, cumulativeInterest =>
    let cum := cumulativeInterest + interestPerPeriod
    { period_label := s!"P{p}"
      remaining_balance := if p = totalPeriods then 0 else principal
      interest_payment := interestPerPeriod
      principal_payment := if p = totalPeriods then principal else 0
      total_payment :=
        if p = totalPeriods then principal + interestPerPeriod else interestPerPeriod
      cumulative_interest := cum } ::
      bulletLoop principal interestPerPeriod totalPeriods (p + 1) rem cum

/-- The grace-phase loop of the amortizing branch (App.jsx lines 259-270).
`balance` is the (unchanged) mutable `balance` variable; the second component
of the result is the value of `cumulativeInterest` after the loop, which the
amortization loop continues from. -/
def graceLoop (principal periodRate balance : ℚ) :
    ℕ → ℕ → ℚ → List Period × ℚ
  | _, 0, cumulativeInterest => ([], cumulativeInterest)
  | p, rem + 1, cumulativeInterest =>
    let interestPayment := principal * periodRate
    let cum := cumulativeInterest + interestPayment
    let rest := graceLoop principal periodRate balance (p + 1) rem cum
    ({ period_label := s!"P{p}"
       remaining_balance := balance
       interest_payment := interestPayment
       principal_payment := 0
       total_payment := interestPayment
       cumulative_interest := cum } :: rest.1, rest.2)

/-- The amortization-phase loop (App.jsx lines 272-285): interest on the
current balance, then the balance drops by `principalPerPeriod`; the displayed
balance is floored at zero with `Math.max`. -/
def amortLoop (periodRate principalPerPeriod : ℚ) (gracePeriods : ℕ) :
    ℕ → ℕ → ℚ → ℚ → List Period
  | _, 0, _, _ => []
  | p, rem + 1, balance, cumulativeInterest =>
    let interestPayment := balance * periodRate
    let totalPayment := principalPerPeriod + interestPayment
    let balance2 := balance - principalPerPeriod
    let cum := cumulativeInterest + interestPayment
    { period_label := s!"P{gracePeriods + p}"
      remaining_balance := max 0 balance2
      interest_payment := interestPayment
      principal_payment := principalPerPeriod
      total_payment := totalPayment
      cumulative_interest := cum } ::
      amortLoop periodRate principalPerPeriod gracePeriods (p + 1) rem balance2 cum

/-- The schedule generator: the `data` useMemo (App.jsx lines 229-289), the
function the spec calls `generateSchedule(loan)`.  The bullet branch is taken
exactly when `loanType === 'bullet'`; everything else falls into the
amortizing branch. -/
def generateSchedule (loan : Loan) : List Period :=
  if loan.loanType = "bullet" then
    bulletLoop loan.principal (interestPerPeriodOf loan) (totalPeriodsOf loan)
      1 (totalPeriodsOf loan) 0
  else
    let graceResult :=
      graceLoop loan.principal (periodRateOf loan) loan.principal 1 (gracePeriodsOf loan) 0
    graceResult.1 ++
      amortLoop (periodRateOf loan) (principalPerPeriodOf loan) (gracePeriodsOf loan)
        1 (amortPeriodsOf loan).toNat loan.principal graceResult.2

/-- A cashflow entry `{ payment, months }` (App.jsx lines 46-83).  Months
elapsed since disbursement is a period index times `paymentFrequency`, so it
is a natural number; the payment is a JS number. -/
structure JsCashflow where
  payment : JsNum
  months : ℕ
  deriving DecidableEq, Repr

/-- Bullet branch of `buildCashflows` (App.jsx lines 50-60). -/
def bulletCashflowLoop (principal interestPerPeriod : ℚ) (totalPeriods pf : ℕ) :
    ℕ → ℕ → List JsCashflow
  | _, 0 => []
  | p, rem + 1 =>
    { payment :=
        JsNum.fin (if p = totalPeriods then principal + interestPerPeriod else interestPerPeriod)
      months := p * pf } ::
      bulletCashflowLoop principal interestPerPeriod totalPeriods pf (p + 1) rem

/-- Grace-phase loop of the amortizing branch of `buildCashflows`
(App.jsx lines 69-71). -/
def graceCashflowLoop (principal periodRate : ℚ) (pf : ℕ) : ℕ → ℕ → List JsCashflow
  | _, 0 => []
  | p, rem + 1 =>
    { payment := JsNum.fin (principal * periodRate), months := p * pf } ::
      graceCashflowLoop principal periodRate pf (p + 1) rem

/-- Amortization-phase loop of `buildCashflows` (App.jsx lines 72-79). -/
def amortCashflowLoop (periodRate principalPerPeriod : ℚ) (gracePeriods pf : ℕ) :
    ℕ → ℕ → ℚ → List JsCashflow
  | _, 0, _ => []
  | p, rem + 1, balance =>
    let interest := balance * periodRate
    { payment := JsNum.fin (principalPerPeriod + interest)
      months := (gracePeriods + p) * pf } ::
      amortCashflowLoop periodRate principalPerPeriod gracePeriods pf (p + 1) rem
        (balance - principalPerPeriod)

/-- `buildCashflows(loan)` (App.jsx lines 46-83).  It recomputes the same
`gracePeriods`, `amortPeriods`, `principalPerPeriod`, `totalPeriods` and rates
as the schedule generator. -/
def buildCashflows (loan : Loan) : List JsCashflow :=
  if loan.loanType = "bullet" then
    bulletCashflowLoop loan.principal (interestPerPeriodOf loan) (totalPeriodsOf loan)
      loan.paymentFrequency 1 (totalPeriodsOf loan)
  else
    graceCashflowLoop loan.principal (periodRateOf loan) loan.paymentFrequency
      1 (gracePeriodsOf loan) ++
      amortCashflowLoop (periodRateOf loan) (principalPerPeriodOf loan) (gracePeriodsOf loan)
        loan.paymentFrequency 1 (amortPeriodsOf loan).toNat loan.principal

/-- Sum of a list of JS numbers (used to state the cashflow/schedule
cross-consistency property). -/
def jsSum : List JsNum → JsNum
  | [] => JsNum.fin 0
  | x :: xs => x + jsSum xs

/-- `npv(r)` inside `computeIRR` (App.jsx lines 15-21). -/
def npv (principal : JsNum) (cashflows : List JsCashflow) (r : JsNum) : JsNum :=
  cashflows.foldl (fun sum cf => sum + cf.payment / (JsNum.fin 1 + r).pow cf.months)
    (-principal)

/-- `npvDerivative(r)` inside `computeIRR` (App.jsx lines 23-29). -/
def npvDerivative (cashflows : List JsCashflow) (r : JsNum) : JsNum :=
  cashflows.foldl
    (fun sum cf =>
      sum - JsNum.fin (cf.months : ℚ) * cf.payment / (JsNum.fin 1 + r).pow (cf.months + 1))
    (JsNum.fin 0)

/-- The Newton-Raphson loop of `computeIRR` (App.jsx lines 31-40), with the
iteration count as fuel: stall guard `|dfn| < 1e-12` leaves `r` unchanged;
the convergence test `|rNew - r| < 1e-10` stops at `rNew`; an iterate
`<= -1` is reset to `0.0001`. -/
def newtonLoop (principal : JsNum) (cashflows : List JsCashflow) :
    ℕ → JsNum → JsNum
  | 0, r => r
  | n + 1, r =>
    let fn := npv principal cashflows r
    let dfn := npvDerivative cashflows r
    if dfn.abs.lt (JsNum.fin (1 / 10 ^ 12)) then r
    else
      let rNew := r - fn / dfn
      if (rNew - r).abs.lt (JsNum.fin (1 / 10 ^ 10)) then rNew
      else
        newtonLoop principal cashflows n
          (if rNew.le (JsNum.fin (-1)) then JsNum.fin (1 / 10000) else rNew)

/-- `annualized = (Math.pow(1 + r, 12) - 1) * 100` computed from the solved
rate (App.jsx line 42), seeded at `r = 0.008` with 100 iterations. -/
def annualizedOf (principal : JsNum) (cashflows : List JsCashflow) : JsNum :=
  let r := newtonLoop principal cashflows 100 (JsNum.fin (8 / 1000))
  ((JsNum.fin 1 + r).pow 12 - JsNum.fin 1) * JsNum.fin 100

/-- `computeIRR(principal, cashflows)` (App.jsx lines 12-44): defensive `0`
for an empty cashflow list or non-positive principal, and `0` instead of a
non-finite annualized result. -/
def computeIRR (principal : JsNum) (cashflows : List JsCashflow) : JsNum :=
  if cashflows.length = 0 ∨ principal.le (JsNum.fin 0) = true then JsNum.fin 0
  else
    match annualizedOf principal cashflows with
    | JsNum.fin q => JsNum.fin q
    | JsNum.nonFinite => JsNum.fin 0

/-- Per-loan summary statistics: the `finalStats` useMemo's result shape
(App.jsx lines 294-306). -/
structure LoanStats where
  interest : ℚ
  paid : ℚ
  effectiveRate : ℚ
  irrRate : JsNum
  deriving DecidableEq, Repr

/-- `finalStats` (App.jsx lines 294-306): reads the last schedule row
(`data[data.length - 1]`), defaulting to all zeros when the schedule is
empty. -/
def finalStats (loan : Loan) : LoanStats :=
  match (generateSchedule loan).getLast? with
  | none => { interest := 0, paid := 0, effectiveRate := 0, irrRate := JsNum.fin 0 }
  | some last =>
    let interest := last.cumulative_interest
    { interest := interest
      paid := loan.principal + interest
      effectiveRate := interest / loan.principal / (loan.totalMonths / 12) * 100
      irrRate := computeIRR (JsNum.fin loan.principal) (buildCashflows loan) }

/-- The grace loop of the aggregator's per-loan interest recomputation
(App.jsx lines 332-334): unconditionally adds `principal * periodRate` per
grace period, regardless of loan type. -/
def aggGraceLoop (principal periodRate : ℚ) : ℕ → ℚ → ℚ
  | 0, acc => acc
  | rem + 1, acc => aggGraceLoop principal periodRate rem (acc + principal * periodRate)

/-- The amortization loop of the aggregator (App.jsx lines 335-339): interest
is `balance * periodRate` only for `loanType === 'amortizing'`, otherwise
`0`. -/
def aggAmortLoop (isAmortizing : Bool) (periodRate principalPerPeriod : ℚ) :
    ℕ → ℚ → ℚ → ℚ
  | 0, _, acc => acc
  | rem + 1, balance, acc =>
    let interestPayment := if isAmortizing then balance * periodRate else 0
    aggAmortLoop isAmortizing periodRate principalPerPeriod rem
      (balance - principalPerPeriod) (acc + interestPayment)

/-- The aggregator's per-loan `interestSum` (App.jsx lines 323-339), which
reimplements the grace+amortization summation without materializing
periods. -/
def loanInterestSum (loan : Loan) : ℚ :=
  let principalPerPeriod :=
    if loan.loanType = "amortizing" then loan.principal / (amortPeriodsOf loan : ℚ) else 0
  aggAmortLoop (loan.loanType = "amortizing") (periodRateOf loan) principalPerPeriod
    (amortPeriodsOf loan).toNat loan.principal
    (aggGraceLoop loan.principal (periodRateOf loan) (gracePeriodsOf loan) 0)

/-- The running accumulators of `portfolioTotals`'s `forEach` (App.jsx lines
315-318). -/
structure AggState where
  totalPrincipal : ℚ
  totalInterest : ℚ
  weightedEffectiveSum : ℚ
  weightedIRRSum : JsNum
  deriving Repr

/-- One `forEach` iteration of `portfolioTotals` (App.jsx lines 320-350). -/
def aggStep (st : AggState) (loan : Loan) : AggState :=
  let interestSum := loanInterestSum loan
  let years := loan.totalMonths / 12
  let effectiveRate := interestSum / loan.principal / years * 100
  let irr := computeIRR (JsNum.fin loan.principal) (buildCashflows loan)
  { totalPrincipal := st.totalPrincipal + loan.principal
    totalInterest := st.totalInterest + interestSum
    weightedEffectiveSum := st.weightedEffectiveSum + effectiveRate * loan.principal
    weightedIRRSum := st.weightedIRRSum + irr * JsNum.fin loan.principal }

/-- The portfolio-level summary record (App.jsx lines 352-357). -/
structure PortfolioTotals where
  totalPrincipal : ℚ
  totalInterest : ℚ
  effectiveRate : ℚ
  irrRate : JsNum
  deriving DecidableEq, Repr

/-- The aggregator `portfolioTotals` (App.jsx lines 311-358): all-zero for an
empty portfolio, otherwise principal-weighted averages guarded by
`totalPrincipal > 0`. -/
def portfolioTotals (loans : List Loan) : PortfolioTotals :=
  if loans.length = 0 then
    { totalPrincipal := 0, totalInterest := 0, effectiveRate := 0, irrRate := JsNum.fin 0 }
  else
    let st := loans.foldl aggStep ⟨0, 0, 0, JsNum.fin 0⟩
    { totalPrincipal := st.totalPrincipal
      totalInterest := st.totalInterest
      effectiveRate :=
        if 0 < st.totalPrincipal then st.weightedEffectiveSum / st.totalPrincipal else 0
      irrRate :=
        if 0 < st.totalPrincipal then st.weightedIRRSum / JsNum.fin st.totalPrincipal
        else JsNum.fin 0 }

/-- A parsed JSON value, for the import path (`JSON.parse` output). -/
inductive Json where
  | null
  | bool (b : Bool)
  | num (q : ℚ)
  | str (s : String)
  | arr (items : List Json)
  | obj (fields : List (String × Json))

/-- JS member access `value[k]`: `none` models `undefined`.  (Accessing a
member of a primitive also yields `undefined` in JS; `null` would throw, a
case none of the verified properties exercises.) -/
def jsonGet? : Json → String → Option Json
  | Json.obj fields, k => (fields.find? (fun f => f.1 == k)).map (fun f => f.2)
  | _, _ => none

/-- The `required` field list of `importPortfolio` (App.jsx line 129), in
source order. -/
def requiredFields : List String :=
  ["id", "name", "principal", "totalMonths", "annualRate", "graceMonths",
   "paymentFrequency", "loanType"]

/-- The inner `required.forEach` of the import validation: the first key of
`ks` that is `undefined` on `loan` (the first `throw`), if any. -/
def firstMissingField (loan : Json) : List String → Option String
  | [] => none
  | k :: ks => if (jsonGet? loan k).isNone then some k else firstMissingField loan ks

/-- The outer `parsed.loans.forEach` of the import validation (App.jsx lines
130-134): fails with the message of the first missing field of the first
invalid loan; `startIdx` is the 0-based index of the first loan of the
remaining list. -/
def validateLoans (startIdx : ℕ) : List Json → Except String Unit
  | [] => Except.ok ()
  | loan :: rest =>
    match firstMissingField loan requiredFields with
    | some k => Except.error s!"Loan {startIdx + 1} is missing field \"{k}\"."
    | none => validateLoans (startIdx + 1) rest

/-- `importPortfolio` after `JSON.parse` succeeds (App.jsx lines 119-142):
`parsed.loans` must be an array (any falsy or non-array value rejects with
the generic message), then every loan must have the eight required fields. -/
def importPortfolio (parsed : Json) : Except String (List Json) :=
  match jsonGet? parsed "loans" with
  | some (Json.arr loans) =>
    match validateLoans 0 loans with
    | Except.ok _ => Except.ok loans
    | Except.error e => Except.error e
  | _ => Except.error "Invalid file: missing loans array."

/-- The component state touched by the import handler: the loans list (raw
imported objects), the active loan id value, and the feedback flags. -/
structure ImportState where
  loans : List Json
  activeLoanId : Json
  importError : Option String
  importSuccess : Bool

/-- `handleFileChange` after the file is read and parsed (App.jsx lines
208-224): a rejected import only sets `importError`; a successful import
replaces the loans and selects `importedLoans[0].id`.  A successful import of
an *empty* loans array makes `importedLoans[0].id` throw a TypeError in JS
(after `setLoans` already ran); that unmodeled crash is returned as `none`. -/
def handleFileChange (st : ImportState) (parsed : Json) : Option ImportState :=
  match importPortfolio parsed with
  | Except.error msg => some { st with importError := some msg }
  | Except.ok imported =>
    match imported.head? with
    | none => none
    | some first =>
      some { st with
        loans := imported
        activeLoanId := (jsonGet? first "id").getD Json.null
        importSuccess := true }

/-- The loan-list state touched by `removeLoan`. -/
structure PortfolioState where
  loans : List Loan
  activeLoanId : ℤ
  deriving DecidableEq, Repr

/-- `removeLoan(id)` (App.jsx lines 185-190): a no-op on a single-loan list;
otherwise filters the id out and, when the active loan was removed, selects
`updated[0].id`.  If the filter empties the list while the removed id was
active, JS throws a TypeError on `updated[0].id`; that case is `none`. -/
def removeLoan (st : PortfolioState) (id : ℤ) : Option PortfolioState :=
  if st.loans.length = 1 then some st
  else
    let updated := st.loans.filter (fun l => l.id != id)
    if id = st.activeLoanId then
      match updated.head? with
      | none => none
      | some first => some { loans := updated, activeLoanId := first.id }
    else some { st with loans := updated }

/-- Cumulative interest of the last row of a schedule fragment, with a default
for the empty fragment (how `finalStats` reads `data[data.length - 1]`). -/
def lastCum (l : List Period) (d : ℚ) : ℚ :=
  ((l.getLast?).map Period.cumulative_interest).getD d

/-! ### Basic shape lemmas for the schedule and cashflow loops -/

theorem bulletLoop_length (P ipp : ℚ) (tp : ℕ) :
    ∀ (rem p : ℕ) (cum : ℚ), (bulletLoop P ipp tp p rem cum).length = rem := by
  intro rem
  induction rem with
  | zero => intro p cum; rfl
  | succ n ih => intro p cum; simp [bulletLoop, ih]

theorem graceLoop_fst_length (P rate bal : ℚ) :
    ∀ (rem p : ℕ) (cum : ℚ), (graceLoop P rate bal p rem cum).1.length = rem := by
  intro rem
  induction rem with
  | zero => intro p cum; rfl
  | succ n ih => intro p cum; simp [graceLoop, ih]

theorem amortLoop_length (rate ppp : ℚ) (g : ℕ) :
    ∀ (rem p : ℕ) (bal cum : ℚ), (amortLoop rate ppp g p rem bal cum).length = rem := by
  intro rem
  induction rem with
  | zero => intro p bal cum; rfl
  | succ n ih => intro p bal cum; simp [amortLoop, ih]

theorem bulletCashflowLoop_length (P ipp : ℚ) (tp pf : ℕ) :
    ∀ (rem p : ℕ), (bulletCashflowLoop P ipp tp pf p rem).length = rem := by
  intro rem
  induction rem with
  | zero => intro p; rfl
  | succ n ih => intro p; simp [bulletCashflowLoop, ih]

theorem graceCashflowLoop_length (P rate : ℚ) (pf : ℕ) :
    ∀ (rem p : ℕ), (graceCashflowLoop P rate pf p rem).length = rem := by
  intro rem
  induction rem with
  | zero => intro p; rfl
  | succ n ih => intro p; simp [graceCashflowLoop, ih]

theorem amortCashflowLoop_length (rate ppp : ℚ) (g pf : ℕ) :
    ∀ (rem p : ℕ) (bal : ℚ), (amortCashflowLoop rate ppp g pf p rem bal).length = rem := by
  intro rem
  induction rem with
  | zero => intro p bal; rfl
  | succ n ih => intro p bal; simp [amortCashflowLoop, ih]

theorem graceLoop_mem (P rate bal : ℚ) :
    ∀ (rem p : ℕ) (cum : ℚ), ∀ x ∈ (graceLoop P rate bal p rem cum).1,
      x.remaining_balance = bal ∧ x.principal_payment = 0 ∧
        x.interest_payment = P * rate ∧ x.total_payment = P * rate := by
  intro rem
  induction rem with
  | zero => intro p cum x hx; simp [graceLoop] at hx
  | succ n ih =>
    intro p cum x hx
    simp only [graceLoop, List.mem_cons] at hx
    rcases hx with h | h
    · subst h; exact ⟨rfl, rfl, rfl, rfl⟩
    · exact ih (p + 1) _ x h

/-! ### The generator performs no validation (claims C1 and C10) -/

theorem generateSchedule_not_bullet (l : Loan) (hT : l.loanType ≠ "bullet") :
    generateSchedule l =
      (graceLoop l.principal (periodRateOf l) l.principal 1 (gracePeriodsOf l) 0).1 ++
        amortLoop (periodRateOf l) (principalPerPeriodOf l) (gracePeriodsOf l)
          1 (amortPeriodsOf l).toNat l.principal
          (graceLoop l.principal (periodRateOf l) l.principal 1 (gracePeriodsOf l) 0).2 := by
  rw [generateSchedule, if_neg hT]

/-- Claim C1, counterexample: for the amortizing loan with
`totalMonths = graceMonths = 12` (so `amortPeriods = 0`), the generator does
not refuse: it returns a 4-row schedule and no error value of any kind exists
in the code. -/
theorem c1_counterexample :
    amortPeriodsOf { createLoan 1 with totalMonths := 12 } = 0 ∧
      (generateSchedule { createLoan 1 with totalMonths := 12 }).length = 4 := by
  constructor
  · norm_num [amortPeriodsOf, createLoan]
  · rw [generateSchedule_not_bullet _ (by decide), List.length_append,
      graceLoop_fst_length, amortLoop_length]
    norm_num [gracePeriodsOf, amortPeriodsOf, createLoan]
    rfl

/-- Claim C1, amended: the schedule generator has no validation and no
failure channel.  For an amortizing loan whose derived `amortPeriods` is zero
or negative it still produces a schedule: exactly the `gracePeriods`
grace-phase rows (the amortization loop runs zero times), rather than failing
with an `InvalidLoanParameters` error. -/
theorem c1_amended (l : Loan) (hT : l.loanType = "amortizing")
    (h : amortPeriodsOf l ≤ 0) :
    (generateSchedule l).length = gracePeriodsOf l := by
  rw [generateSchedule_not_bullet l (by rw [hT]; decide), List.length_append,
    graceLoop_fst_length, amortLoop_length, Int.toNat_of_nonpos h]
  exact Nat.add_zero _

/-- Witness for `c1_amended` at the concrete loan of the counterexample. -/
theorem c1_amended_witness :
    ({ createLoan 1 with totalMonths := 12 } : Loan).loanType = "amortizing" ∧
      amortPeriodsOf { createLoan 1 with totalMonths := 12 } ≤ 0 ∧
      (generateSchedule { createLoan 1 with totalMonths := 12 }).length =
        gracePeriodsOf { createLoan 1 with totalMonths := 12 } :=
  ⟨rfl, by norm_num [amortPeriodsOf, createLoan],
    c1_amended _ rfl (by norm_num [amortPeriodsOf, createLoan])⟩

/-- Claim C10: with `totalMonths ≤ graceMonths` (so `amortPeriods ≤ 0`) the
amortizing generator emits only the grace-phase rows, every one of which
carries `remaining_balance = principal`, `principal_payment = 0` and the
(finite) `interest_payment = principal * periodRate`; the `principalPerPeriod`
division never reaches any output record, so no division by zero is
observable. -/
theorem c10_grace_only_schedule (l : Loan) (hT : l.loanType = "amortizing")
    (hm : l.totalMonths ≤ l.graceMonths) (hPF : 0 < l.paymentFrequency) :
    (generateSchedule l).length = gracePeriodsOf l ∧
      ∀ x ∈ generateSchedule l,
        x.remaining_balance = l.principal ∧ x.principal_payment = 0 ∧
          x.interest_payment = l.principal * periodRateOf l := by
  have hq : (l.totalMonths - l.graceMonths) / (l.paymentFrequency : ℚ) ≤ 0 := by
    apply div_nonpos_of_nonpos_of_nonneg
    · linarith
    · positivity
  have hAm : amortPeriodsOf l ≤ 0 := by
    rw [amortPeriodsOf]
    exact_mod_cast Int.ceil_le.mpr (by exact_mod_cast hq)
  have hnil : (amortPeriodsOf l).toNat = 0 := Int.toNat_of_nonpos hAm
  constructor
  · rw [generateSchedule_not_bullet l (by rw [hT]; decide), List.length_append,
      graceLoop_fst_length, amortLoop_length, hnil]
    exact Nat.add_zero _
  · intro x hx
    rw [generateSchedule_not_bullet l (by rw [hT]; decide), hnil] at hx
    simp only [amortLoop, List.append_nil] at hx
    have := graceLoop_mem l.principal (periodRateOf l) l.principal
      (gracePeriodsOf l) 1 0 x hx
    exact ⟨this.1, this.2.1, this.2.2.1⟩

/-- Witness for `c10_grace_only_schedule` at a concrete loan with
`totalMonths = graceMonths = 12`. -/
theorem c10_grace_only_schedule_witness :
    (({ createLoan 1 with totalMonths := 12 } : Loan).loanType = "amortizing" ∧
        ({ createLoan 1 with totalMonths := 12 } : Loan).totalMonths ≤
          ({ createLoan 1 with totalMonths := 12 } : Loan).graceMonths ∧
        0 < ({ createLoan 1 with totalMonths := 12 } : Loan).paymentFrequency) ∧
      (generateSchedule { createLoan 1 with totalMonths := 12 }).length =
          gracePeriodsOf { createLoan 1 with totalMonths := 12 } ∧
        ∀ x ∈ generateSchedule { createLoan 1 with totalMonths := 12 },
          x.remaining_balance = ({ createLoan 1 with totalMonths := 12 } : Loan).principal ∧
            x.principal_payment = 0 ∧
            x.interest_payment =
              ({ createLoan 1 with totalMonths := 12 } : Loan).principal *
                periodRateOf { createLoan 1 with totalMonths := 12 } :=
  ⟨⟨rfl, by norm_num [createLoan], by norm_num [createLoan]⟩,
    c10_grace_only_schedule _ rfl (by norm_num [createLoan]) (by norm_num [createLoan])⟩

/-! ### Bullet schedule shape (claim C4) -/

theorem bulletLoop_ne_nil (P ipp : ℚ) (tp p : ℕ) (cum : ℚ) (n : ℕ) :
    bulletLoop P ipp tp p (n + 1) cum ≠ [] := by
  simp [bulletLoop]

theorem getLast?_cons_of_ne_nil {α : Type} (a : α) {l : List α} (h : l ≠ []) :
    (a :: l).getLast? = l.getLast? := by
  cases l with
  | nil => exact absurd rfl h
  | cons b t => exact List.getLast?_cons_cons

theorem bulletLoop_dropLast (P ipp : ℚ) (tp : ℕ) :
    ∀ (rem p : ℕ) (cum : ℚ), p + rem = tp + 1 →
      ∀ x ∈ (bulletLoop P ipp tp p rem cum).dropLast,
        x.remaining_balance = P ∧ x.total_payment = ipp := by
  intro rem
  induction rem with
  | zero => intro p cum _ x hx; simp [bulletLoop] at hx
  | succ n ih =>
    intro p cum hsum x hx
    match n, ih with
    | 0, _ => simp [bulletLoop] at hx
    | m + 1, ih =>
      rw [bulletLoop, List.dropLast_cons_of_ne_nil (bulletLoop_ne_nil P ipp tp (p + 1) _ m)]
        at hx
      rcases List.mem_cons.mp hx with h | h
      · have hp : p ≠ tp := by omega
        subst h
        simp [if_neg hp]
      · exact ih (p + 1) _ (by omega) x h

theorem bulletLoop_getLast_remaining (P ipp : ℚ) (tp : ℕ) :
    ∀ (rem p : ℕ) (cum : ℚ), 1 ≤ rem → p + rem = tp + 1 →
      ((bulletLoop P ipp tp p rem cum).map Period.remaining_balance).getLast? = some 0 := by
  intro rem
  induction rem with
  | zero => intro p cum h; omega
  | succ n ih =>
    intro p cum _ hsum
    match n, ih with
    | 0, _ =>
      have hp : p = tp := by omega
      simp [bulletLoop, hp]
    | m + 1, ih =>
      rw [bulletLoop]
      simp only [List.map_cons]
      rw [getLast?_cons_of_ne_nil _ (by
        simp [List.map_eq_nil_iff]
        exact bulletLoop_ne_nil P ipp tp (p + 1) _ m)]
      exact ih (p + 1) _ (by omega) (by omega)

theorem bulletLoop_getLast_total (P ipp : ℚ) (tp : ℕ) :
    ∀ (rem p : ℕ) (cum : ℚ), 1 ≤ rem → p + rem = tp + 1 →
      ((bulletLoop P ipp tp p rem cum).map Period.total_payment).getLast? =
        some (P + ipp) := by
  intro rem
  induction rem with
  | zero => intro p cum h; omega
  | succ n ih =>
    intro p cum _ hsum
    match n, ih with
    | 0, _ =>
      have hp : p = tp := by omega
      simp [bulletLoop, hp]
    | m + 1, ih =>
      rw [bulletLoop]
      simp only [List.map_cons]
      rw [getLast?_cons_of_ne_nil _ (by
        simp [List.map_eq_nil_iff]
        exact bulletLoop_ne_nil P ipp tp (p + 1) _ m)]
      exact ih (p + 1) _ (by omega) (by omega)

theorem generateSchedule_bullet (l : Loan) (hT : l.loanType = "bullet") :
    generateSchedule l =
      bulletLoop l.principal (interestPerPeriodOf l) (totalPeriodsOf l)
        1 (totalPeriodsOf l) 0 := by
  rw [generateSchedule, hT]
  rfl

/-- Claim C4: for a bullet loan with at least one period, every non-final
schedule row keeps `remaining_balance = principal` and pays only
`interestPerPeriod`, while the final row has `remaining_balance = 0` and
`total_payment = principal + interestPerPeriod`. -/
theorem c4_bullet_schedule_shape (l : Loan) (hT : l.loanType = "bullet")
    (hN : 1 ≤ totalPeriodsOf l) :
    (∀ x ∈ (generateSchedule l).dropLast,
        x.remaining_balance = l.principal ∧ x.total_payment = interestPerPeriodOf l) ∧
      ((generateSchedule l).map Period.remaining_balance).getLast? = some 0 ∧
      ((generateSchedule l).map Period.total_payment).getLast? =
        some (l.principal + interestPerPeriodOf l) := by
  rw [generateSchedule_bullet l hT]
  refine ⟨?_, ?_, ?_⟩
  · exact bulletLoop_dropLast l.principal (interestPerPeriodOf l) (totalPeriodsOf l)
      (totalPeriodsOf l) 1 0 (by omega)
  · exact bulletLoop_getLast_remaining l.principal (interestPerPeriodOf l) (totalPeriodsOf l)
      (totalPeriodsOf l) 1 0 hN (by omega)
  · exact bulletLoop_getLast_total l.principal (interestPerPeriodOf l) (totalPeriodsOf l)
      (totalPeriodsOf l) 1 0 hN (by omega)

/-- Witness for `c4_bullet_schedule_shape` at the default loan switched to
bullet type (20 periods). -/
theorem c4_bullet_schedule_shape_witness :
    (({ createLoan 1 with loanType := "bullet" } : Loan).loanType = "bullet" ∧
        1 ≤ totalPeriodsOf { createLoan 1 with loanType := "bullet" }) ∧
      ((∀ x ∈ (generateSchedule { createLoan 1 with loanType := "bullet" }).dropLast,
          x.remaining_balance = ({ createLoan 1 with loanType := "bullet" } : Loan).principal ∧
            x.total_payment = interestPerPeriodOf { createLoan 1 with loanType := "bullet" }) ∧
        ((generateSchedule { createLoan 1 with loanType := "bullet" }).map
            Period.remaining_balance).getLast? = some 0 ∧
        ((generateSchedule { createLoan 1 with loanType := "bullet" }).map
            Period.total_payment).getLast? =
          some (({ createLoan 1 with loanType := "bullet" } : Loan).principal +
            interestPerPeriodOf { createLoan 1 with loanType := "bullet" })) :=
  ⟨⟨rfl, by norm_num [totalPeriodsOf, createLoan]⟩,
    c4_bullet_schedule_shape _ rfl (by norm_num [totalPeriodsOf, createLoan])⟩

/-! ### Concrete scenario of the spec (claim C6) -/

/-- Claim C6: for the default amortizing loan (principal 1000, 60 months,
rate 10, grace 12, quarterly payments) the generator derives
`gracePeriods = 4`, `amortPeriods = 16`, `principalPerPeriod = 62.5`; the
first grace row pays interest 25, and the first amortization row (period 5,
index 4) pays interest 25 and principal 62.5. -/
theorem c6_default_scenario :
    gracePeriodsOf (createLoan 1) = 4 ∧
      amortPeriodsOf (createLoan 1) = 16 ∧
      principalPerPeriodOf (createLoan 1) = 125 / 2 ∧
      ((generateSchedule (createLoan 1))[0]?).map Period.interest_payment = some 25 ∧
      ((generateSchedule (createLoan 1))[4]?).map
          (fun x => (x.interest_payment, x.principal_payment)) = some (25, 125 / 2) := by
  have hg : gracePeriodsOf (createLoan 1) = 4 := by
    norm_num [gracePeriodsOf, createLoan]
    rfl
  have ha : amortPeriodsOf (createLoan 1) = 16 := by
    norm_num [amortPeriodsOf, createLoan]
  have hp : principalPerPeriodOf (createLoan 1) = 125 / 2 := by
    rw [principalPerPeriodOf, ha]
    norm_num [createLoan]
  refine ⟨hg, ha, hp, ?_, ?_⟩
  · rw [generateSchedule_not_bullet _ (by decide), hg]
    norm_num [graceLoop, periodRateOf, createLoan]
  · rw [generateSchedule_not_bullet _ (by decide), hg, ha, hp]
    norm_num [graceLoop, amortLoop, periodRateOf, createLoan]

/-! ### Cashflows mirror the schedule (claim C5) -/

theorem buildCashflows_bullet (l : Loan) (hT : l.loanType = "bullet") :
    buildCashflows l =
      bulletCashflowLoop l.principal (interestPerPeriodOf l) (totalPeriodsOf l)
        l.paymentFrequency 1 (totalPeriodsOf l) := by
  rw [buildCashflows, if_pos hT]

theorem buildCashflows_not_bullet (l : Loan) (hT : l.loanType ≠ "bullet") :
    buildCashflows l =
      graceCashflowLoop l.principal (periodRateOf l) l.paymentFrequency
          1 (gracePeriodsOf l) ++
        amortCashflowLoop (periodRateOf l) (principalPerPeriodOf l) (gracePeriodsOf l)
          l.paymentFrequency 1 (amortPeriodsOf l).toNat l.principal := by
  rw [buildCashflows, if_neg hT]

theorem jsNum_fin_add (a b : ℚ) : JsNum.fin a + JsNum.fin b = JsNum.fin (a + b) := rfl

theorem jsSum_map_fin : ∀ l : List ℚ, jsSum (l.map JsNum.fin) = JsNum.fin l.sum := by
  intro l
  induction l with
  | nil => rfl
  | cons x xs ih => simp [jsSum, ih, jsNum_fin_add]

theorem bulletCashflowLoop_map_payment (P ipp : ℚ) (tp pf : ℕ) :
    ∀ (rem p : ℕ) (cum : ℚ),
      (bulletCashflowLoop P ipp tp pf p rem).map JsCashflow.payment =
        (bulletLoop P ipp tp p rem cum).map (fun x => JsNum.fin x.total_payment) := by
  intro rem
  induction rem with
  | zero => intro p cum; rfl
  | succ n ih =>
    intro p cum
    simp only [bulletCashflowLoop, bulletLoop, List.map_cons]
    exact congrArg _ (ih (p + 1) _)

theorem graceCashflowLoop_map_payment (P rate bal : ℚ) (pf : ℕ) :
    ∀ (rem p : ℕ) (cum : ℚ),
      (graceCashflowLoop P rate pf p rem).map JsCashflow.payment =
        (graceLoop P rate bal p rem cum).1.map (fun x => JsNum.fin x.total_payment) := by
  intro rem
  induction rem with
  | zero => intro p cum; rfl
  | succ n ih =>
    intro p cum
    simp only [graceCashflowLoop, graceLoop, List.map_cons]
    exact congrArg _ (ih (p + 1) _)

theorem amortCashflowLoop_map_payment (rate ppp : ℚ) (g pf : ℕ) :
    ∀ (rem p : ℕ) (bal cum : ℚ),
      (amortCashflowLoop rate ppp g pf p rem bal).map JsCashflow.payment =
        (amortLoop rate ppp g p rem bal cum).map (fun x => JsNum.fin x.total_payment) := by
  intro rem
  induction rem with
  | zero => intro p bal cum; rfl
  | succ n ih =>
    intro p bal cum
    simp only [amortCashflowLoop, amortLoop, List.map_cons]
    exact congrArg _ (ih (p + 1) _ _)

/-- Claim C5: for every loan with a positive payment frequency (the only
frequencies the app offers are 1, 3, 6, 12), `buildCashflows` produces
exactly as many entries as the schedule generator produces rows, and the sum
of the cashflow payments equals the sum of the schedule's `total_payment`
column. -/
theorem c5_cashflows_match_schedule (l : Loan) (_hPF : 0 < l.paymentFrequency) :
    (buildCashflows l).length = (generateSchedule l).length ∧
      jsSum ((buildCashflows l).map JsCashflow.payment) =
        JsNum.fin (((generateSchedule l).map Period.total_payment).sum) := by
  by_cases hb : l.loanType = "bullet"
  · rw [buildCashflows_bullet l hb, generateSchedule_bullet l hb]
    constructor
    · rw [bulletCashflowLoop_length, bulletLoop_length]
    · rw [bulletCashflowLoop_map_payment l.principal (interestPerPeriodOf l)
        (totalPeriodsOf l) l.paymentFrequency (totalPeriodsOf l) 1 0]
      rw [show (fun x : Period => JsNum.fin x.total_payment) =
        JsNum.fin ∘ Period.total_payment from rfl, ← List.map_map, jsSum_map_fin]
  · rw [buildCashflows_not_bullet l hb, generateSchedule_not_bullet l hb]
    constructor
    · simp only [List.length_append]
      rw [graceCashflowLoop_length, graceLoop_fst_length,
        amortCashflowLoop_length, amortLoop_length]
    · rw [List.map_append, List.map_append,
        graceCashflowLoop_map_payment l.principal (periodRateOf l) l.principal
          l.paymentFrequency (gracePeriodsOf l) 1 0,
        amortCashflowLoop_map_payment (periodRateOf l) (principalPerPeriodOf l)
          (gracePeriodsOf l) l.paymentFrequency (amortPeriodsOf l).toNat 1 l.principal
          (graceLoop l.principal (periodRateOf l) l.principal 1 (gracePeriodsOf l) 0).2,
        ← List.map_append]
      rw [show (fun x : Period => JsNum.fin x.total_payment) =
        JsNum.fin ∘ Period.total_payment from rfl, ← List.map_map, jsSum_map_fin]
      rw [List.map_append]

/-- Witness for `c5_cashflows_match_schedule` at the default loan. -/
theorem c5_cashflows_match_schedule_witness :
    0 < (createLoan 1).paymentFrequency ∧
      (buildCashflows (createLoan 1)).length = (generateSchedule (createLoan 1)).length ∧
      jsSum ((buildCashflows (createLoan 1)).map JsCashflow.payment) =
        JsNum.fin (((generateSchedule (createLoan 1)).map Period.total_payment).sum) :=
  ⟨by norm_num [createLoan], c5_cashflows_match_schedule _ (by norm_num [createLoan])⟩

/-! ### Monotone cumulative interest and zero final balance (claim C3) -/

theorem graceLoop_head_cum (P rate bal : ℚ) (rem p : ℕ) (cum : ℚ) (x : Period)
    (h : (graceLoop P rate bal p rem cum).1.head? = some x) :
    x.cumulative_interest = cum + P * rate := by
  cases rem with
  | zero => simp [graceLoop] at h
  | succ n =>
    simp only [graceLoop, List.head?_cons, Option.some.injEq] at h
    rw [← h]

theorem amortLoop_head_cum (rate ppp : ℚ) (g : ℕ) (rem p : ℕ) (bal cum : ℚ) (x : Period)
    (h : (amortLoop rate ppp g p rem bal cum).head? = some x) :
    x.cumulative_interest = cum + bal * rate := by
  cases rem with
  | zero => simp [amortLoop] at h
  | succ n =>
    simp only [amortLoop, List.head?_cons, Option.some.injEq] at h
    rw [← h]

theorem graceLoop_chain (P rate bal : ℚ) (h : 0 ≤ P * rate) :
    ∀ (rem p : ℕ) (cum : ℚ),
      List.Chain' (fun a b => a.cumulative_interest ≤ b.cumulative_interest)
        (graceLoop P rate bal p rem cum).1 := by
  intro rem
  induction rem with
  | zero => intro p cum; simp [graceLoop]
  | succ n ih =>
    intro p cum
    rw [graceLoop]
    refine List.chain'_cons'.mpr ⟨?_, ih (p + 1) _⟩
    intro y hy
    have := graceLoop_head_cum P rate bal n (p + 1) (cum + P * rate) y hy
    simp only [this]
    linarith

theorem amortLoop_chain (rate ppp : ℚ) (g : ℕ) (hr : 0 ≤ rate) (hp : 0 ≤ ppp) :
    ∀ (rem p : ℕ) (cum : ℚ),
      List.Chain' (fun a b => a.cumulative_interest ≤ b.cumulative_interest)
        (amortLoop rate ppp g p rem ((rem : ℚ) * ppp) cum) := by
  intro rem
  induction rem with
  | zero => intro p cum; simp [amortLoop]
  | succ n ih =>
    intro p cum
    rw [amortLoop]
    have hbal : ((n + 1 : ℕ) : ℚ) * ppp - ppp = (n : ℚ) * ppp := by push_cast; ring
    rw [hbal]
    refine List.chain'_cons'.mpr ⟨?_, ih (p + 1) _⟩
    intro y hy
    have := amortLoop_head_cum rate ppp g n (p + 1) ((n : ℚ) * ppp) _ y hy
    simp only [this]
    have : 0 ≤ (n : ℚ) * ppp * rate := by positivity
    linarith

theorem graceLoop_getLast_cum (P rate bal : ℚ) :
    ∀ (rem p : ℕ) (cum : ℚ) (x : Period),
      (graceLoop P rate bal p rem cum).1.getLast? = some x →
        x.cumulative_interest = (graceLoop P rate bal p rem cum).2 := by
  intro rem
  induction rem with
  | zero => intro p cum x h; simp [graceLoop] at h
  | succ n ih =>
    intro p cum x h
    match n, ih with
    | 0, _ =>
      simp only [graceLoop, List.getLast?_singleton, Option.some.injEq] at h ⊢
      rw [← h]
    | m + 1, ih =>
      rw [graceLoop] at h ⊢
      rw [getLast?_cons_of_ne_nil _ (by
        have := graceLoop_fst_length P rate bal (m + 1) (p + 1) (cum + P * rate)
        intro hnil
        rw [hnil] at this
        simp at this)] at h
      exact ih (p + 1) _ x h

theorem amortLoop_ne_nil (rate ppp : ℚ) (g p : ℕ) (bal cum : ℚ) (n : ℕ) :
    amortLoop rate ppp g p (n + 1) bal cum ≠ [] := by
  simp [amortLoop]

theorem amortLoop_getLast_balance (rate ppp : ℚ) (g : ℕ) :
    ∀ (rem p : ℕ) (cum : ℚ), 1 ≤ rem →
      ((amortLoop rate ppp g p rem ((rem : ℚ) * ppp) cum).map
        Period.remaining_balance).getLast? = some 0 := by
  intro rem
  induction rem with
  | zero => intro p cum h; omega
  | succ n ih =>
    intro p cum _
    match n, ih with
    | 0, _ =>
      simp only [amortLoop, List.map_cons, List.map_nil, List.getLast?_singleton,
        Option.some.injEq]
      norm_num
    | m + 1, ih =>
      rw [amortLoop]
      have hbal : ((m + 1 + 1 : ℕ) : ℚ) * ppp - ppp = ((m + 1 : ℕ) : ℚ) * ppp := by
        push_cast; ring
      rw [hbal]
      simp only [List.map_cons]
      rw [getLast?_cons_of_ne_nil _ (by
        simp only [ne_eq, List.map_eq_nil_iff]
        exact amortLoop_ne_nil rate ppp g (p + 1) _ _ m)]
      exact ih (p + 1) _ (by omega)

/-- Claim C3: for every valid amortizing loan (positive principal, non-negative
rate, at least one amortization period, valid payment frequency) the
generated schedule has non-decreasing `cumulative_interest` and the final
row's `remaining_balance` is exactly `0` (the ℚ embedding is exact, so the
floating tolerance is not even needed). -/
theorem c3_amortizing_invariants (l : Loan) (hT : l.loanType = "amortizing")
    (hP : 0 < l.principal) (hr : 0 ≤ l.annualRate) (hA : 1 ≤ amortPeriodsOf l)
    (hPF : 0 < l.paymentFrequency) :
    List.Chain' (fun a b => a.cumulative_interest ≤ b.cumulative_interest)
      (generateSchedule l) ∧
      ((generateSchedule l).map Period.remaining_balance).getLast? = some 0 := by
  have hPFQ : (0 : ℚ) < (l.paymentFrequency : ℚ) := by exact_mod_cast hPF
  have hrate : 0 ≤ periodRateOf l := by
    simp only [periodRateOf]
    apply div_nonneg
    · exact div_nonneg hr (by norm_num)
    · positivity
  have hilp : 0 ≤ l.principal * periodRateOf l := mul_nonneg hP.le hrate
  have hAQ : (0 : ℚ) < (amortPeriodsOf l : ℚ) := by exact_mod_cast (by omega : 0 < amortPeriodsOf l)
  have hppp : 0 ≤ principalPerPeriodOf l := by
    rw [principalPerPeriodOf]
    exact div_nonneg hP.le hAQ.le
  have hNQ : ((amortPeriodsOf l).toNat : ℚ) = (amortPeriodsOf l : ℚ) := by
    exact_mod_cast Int.toNat_of_nonneg (by omega)
  have hbal : l.principal = ((amortPeriodsOf l).toNat : ℚ) * principalPerPeriodOf l := by
    rw [hNQ, principalPerPeriodOf]
    field_simp
  rw [generateSchedule_not_bullet l (by rw [hT]; decide)]
  constructor
  · rw [List.chain'_append]
    refine ⟨graceLoop_chain l.principal (periodRateOf l) l.principal hilp _ _ _, ?_, ?_⟩
    · rw [hbal]
      exact amortLoop_chain _ _ _ hrate hppp _ 1 _
    · intro x hx y hy
      have hx' := graceLoop_getLast_cum l.principal (periodRateOf l) l.principal
        (gracePeriodsOf l) 1 0 x hx
      have hy' := amortLoop_head_cum (periodRateOf l) (principalPerPeriodOf l)
        (gracePeriodsOf l) (amortPeriodsOf l).toNat 1 l.principal _ y hy
      rw [hx', hy']
      linarith
  · rw [List.map_append, List.getLast?_append]
    have hN1 : 1 ≤ (amortPeriodsOf l).toNat := by omega
    rw [hbal, amortLoop_getLast_balance _ _ _ _ 1 _ hN1]
    rfl

/-- Witness for `c3_amortizing_invariants` at the default loan. -/
theorem c3_amortizing_invariants_witness :
    ((createLoan 1).loanType = "amortizing" ∧ 0 < (createLoan 1).principal ∧
        0 ≤ (createLoan 1).annualRate ∧ 1 ≤ amortPeriodsOf (createLoan 1) ∧
        0 < (createLoan 1).paymentFrequency) ∧
      List.Chain' (fun a b => a.cumulative_interest ≤ b.cumulative_interest)
          (generateSchedule (createLoan 1)) ∧
        ((generateSchedule (createLoan 1)).map Period.remaining_balance).getLast? = some 0 :=
  ⟨⟨rfl, by norm_num [createLoan], by norm_num [createLoan],
      by norm_num [amortPeriodsOf, createLoan], by norm_num [createLoan]⟩,
    c3_amortizing_invariants _ rfl (by norm_num [createLoan]) (by norm_num [createLoan])
      (by norm_num [amortPeriodsOf, createLoan]) (by norm_num [createLoan])⟩

/-! ### IRR solver degenerate cases (claim C7) -/

/-- Claim C7: `computeIRR` returns `0` for an empty cashflow list, for a
non-positive (finite) principal, and whenever the annualized Newton result is
non-finite; in all three degenerate cases it returns a value (it is a total
function) instead of signaling an error. -/
theorem c7_computeIRR_degenerate (P : JsNum) (cfs : List JsCashflow)
    (h : cfs = [] ∨ P.le (JsNum.fin 0) = true ∨
      annualizedOf P cfs = JsNum.nonFinite) :
    computeIRR P cfs = JsNum.fin 0 := by
  rcases h with h | h | h
  · subst h
    rfl
  · rw [computeIRR, if_pos (Or.inr h)]
  · rw [computeIRR]
    split_ifs with hg
    · rfl
    · rw [h]

/-- Witness for `c7_computeIRR_degenerate`: a NaN payment drives the Newton
iteration to a non-finite annualized result, and the solver returns `0`. -/
theorem c7_computeIRR_degenerate_witness :
    annualizedOf (JsNum.fin 1000) [{ payment := JsNum.nonFinite, months := 1 }] =
        JsNum.nonFinite ∧
      computeIRR (JsNum.fin 1000) [{ payment := JsNum.nonFinite, months := 1 }] =
        JsNum.fin 0 :=
  ⟨by decide, c7_computeIRR_degenerate _ _ (Or.inr (Or.inr (by decide)))⟩

/-! ### Aggregator versus per-loan statistics (claim C2) -/

theorem lastCum_cons (x : Period) (l : List Period) (d : ℚ) :
    lastCum (x :: l) d = lastCum l x.cumulative_interest := by
  cases l with
  | nil => rfl
  | cons b t =>
    rw [lastCum, lastCum, List.getLast?_cons_cons]
    obtain ⟨y, hy⟩ := Option.isSome_iff_exists.mp
      (List.getLast?_isSome.mpr (List.cons_ne_nil b t))
    rw [hy]
    rfl

theorem lastCum_append (A B : List Period) (d : ℚ) :
    lastCum (A ++ B) d = lastCum B (lastCum A d) := by
  induction A generalizing d with
  | nil => rfl
  | cons x t ih => rw [List.cons_append, lastCum_cons, ih, lastCum_cons]

theorem graceLoop_snd_agg (P rate bal : ℚ) :
    ∀ (rem p : ℕ) (cum : ℚ),
      (graceLoop P rate bal p rem cum).2 = aggGraceLoop P rate rem cum := by
  intro rem
  induction rem with
  | zero => intro p cum; rfl
  | succ n ih => intro p cum; rw [graceLoop, aggGraceLoop]; exact ih (p + 1) _

theorem graceLoop_lastCum (P rate bal : ℚ) :
    ∀ (rem p : ℕ) (cum : ℚ),
      lastCum (graceLoop P rate bal p rem cum).1 cum =
        (graceLoop P rate bal p rem cum).2 := by
  intro rem
  induction rem with
  | zero => intro p cum; rfl
  | succ n ih =>
    intro p cum
    rw [graceLoop]
    simp only []
    rw [lastCum_cons]
    exact ih (p + 1) _

theorem amortLoop_lastCum_agg (rate ppp : ℚ) (g : ℕ) :
    ∀ (rem p : ℕ) (bal cum : ℚ),
      lastCum (amortLoop rate ppp g p rem bal cum) cum =
        aggAmortLoop true rate ppp rem bal cum := by
  intro rem
  induction rem with
  | zero => intro p bal cum; rfl
  | succ n ih =>
    intro p bal cum
    rw [amortLoop, aggAmortLoop]
    simp only [if_pos rfl]
    rw [lastCum_cons]
    exact ih (p + 1) _ _

theorem finalStats_interest (l : Loan) :
    (finalStats l).interest = lastCum (generateSchedule l) 0 := by
  rw [finalStats, lastCum]
  cases h : (generateSchedule l).getLast? with
  | none => simp [h]
  | some x => simp [h]

theorem buildCashflows_length_eq (l : Loan) :
    (buildCashflows l).length = (generateSchedule l).length := by
  by_cases hb : l.loanType = "bullet"
  · rw [buildCashflows_bullet l hb, generateSchedule_bullet l hb,
      bulletCashflowLoop_length, bulletLoop_length]
  · rw [buildCashflows_not_bullet l hb, generateSchedule_not_bullet l hb]
    simp only [List.length_append]
    rw [graceCashflowLoop_length, graceLoop_fst_length,
      amortCashflowLoop_length, amortLoop_length]

theorem loanInterestSum_amortizing (l : Loan) (hT : l.loanType = "amortizing") :
    (finalStats l).interest = loanInterestSum l := by
  rw [finalStats_interest, generateSchedule_not_bullet l (by rw [hT]; decide),
    lastCum_append, graceLoop_lastCum, amortLoop_lastCum_agg, graceLoop_snd_agg]
  rw [loanInterestSum]
  simp only [hT, if_pos rfl, decide_eq_true_eq, principalPerPeriodOf]
  simp

theorem finalStats_effectiveRate_amortizing (l : Loan) (hT : l.loanType = "amortizing") :
    (finalStats l).effectiveRate =
      loanInterestSum l / l.principal / (l.totalMonths / 12) * 100 := by
  have hI := loanInterestSum_amortizing l hT
  rw [finalStats] at hI ⊢
  cases h : (generateSchedule l).getLast? with
  | none =>
    simp only [h] at hI ⊢
    rw [← hI]
    simp
  | some x =>
    simp only [h] at hI ⊢
    rw [hI]

theorem finalStats_irrRate (l : Loan) :
    (finalStats l).irrRate = computeIRR (JsNum.fin l.principal) (buildCashflows l) := by
  rw [finalStats]
  cases h : (generateSchedule l).getLast? with
  | some x => simp only [h]
  | none =>
    simp only [h]
    have hempty : generateSchedule l = [] := List.getLast?_eq_none_iff.mp h
    have hcf : buildCashflows l = [] := by
      have := buildCashflows_length_eq l
      rw [hempty] at this
      exact List.length_eq_zero.mp this
    rw [hcf]
    rfl

theorem jsNum_weighted_cancel (irr : JsNum) (P : ℚ) (hP : P ≠ 0) :
    (JsNum.fin 0 + irr * JsNum.fin P) / JsNum.fin P = irr := by
  cases irr with
  | fin q =>
    show JsNum.div (JsNum.fin (0 + q * P)) (JsNum.fin P) = JsNum.fin q
    rw [JsNum.div, if_neg hP]
    congr 1
    field_simp
  | nonFinite => rfl

/-- Claim C2, counterexample: for the singleton portfolio holding the bullet
loan (principal 1000, 12 months, rate 10, annual payments, no grace), the
aggregator reports `totalInterest = 0` while the loan's own schedule
accumulates interest `100`: the aggregator's amortization loop zeroes the
interest of non-amortizing loans, so the claim fails for bullet loans. -/
theorem c2_counterexample :
    (portfolioTotals [{ createLoan 1 with loanType := "bullet", graceMonths := 0, totalMonths := 12, paymentFrequency := 12 }]).totalInterest = 0 ∧
      (finalStats { createLoan 1 with loanType := "bullet", graceMonths := 0, totalMonths := 12, paymentFrequency := 12 }).interest = 100 ∧
      (portfolioTotals [{ createLoan 1 with loanType := "bullet", graceMonths := 0, totalMonths := 12, paymentFrequency := 12 }]).totalInterest ≠ (finalStats { createLoan 1 with loanType := "bullet", graceMonths := 0, totalMonths := 12, paymentFrequency := 12 }).interest := by
  have hport : (portfolioTotals [{ createLoan 1 with loanType := "bullet", graceMonths := 0, totalMonths := 12, paymentFrequency := 12 }]).totalInterest = 0 := by
    rw [portfolioTotals, if_neg (by simp)]
    simp only [List.foldl_cons, List.foldl_nil, aggStep]
    norm_num [loanInterestSum, aggGraceLoop, aggAmortLoop, gracePeriodsOf,
      amortPeriodsOf, periodRateOf, createLoan]
    decide
  have hstats : (finalStats { createLoan 1 with loanType := "bullet", graceMonths := 0, totalMonths := 12, paymentFrequency := 12 }).interest = 100 := by
    rw [finalStats_interest, generateSchedule_bullet _ rfl]
    norm_num [bulletLoop, lastCum, totalPeriodsOf, interestPerPeriodOf, createLoan]
  refine ⟨hport, hstats, ?_⟩
  rw [hport, hstats]
  norm_num

/-- Claim C2, amended: restricted to amortizing loans (with a positive
principal), the aggregator over a singleton portfolio agrees with the loan's
own statistics: `totalInterest` equals the schedule's cumulative interest,
and the portfolio `effectiveRate` and `irrRate` equal the loan's own rates
(the principal weighting cancels).  For bullet loans the aggregator's
interest recomputation returns `0` (see the counterexample), so they must be
excluded. -/
theorem c2_singleton_amortizing (l : Loan) (hT : l.loanType = "amortizing")
    (hP : 0 < l.principal) :
    (portfolioTotals [l]).totalInterest = (finalStats l).interest ∧
      (portfolioTotals [l]).effectiveRate = (finalStats l).effectiveRate ∧
      (portfolioTotals [l]).irrRate = (finalStats l).irrRate := by
  have hPne : l.principal ≠ 0 := ne_of_gt hP
  rw [portfolioTotals, if_neg (by simp)]
  simp only [List.foldl_cons, List.foldl_nil, aggStep]
  refine ⟨?_, ?_, ?_⟩
  · simp only [zero_add]
    exact (loanInterestSum_amortizing l hT).symm
  · simp only [zero_add]
    rw [if_pos hP, finalStats_effectiveRate_amortizing l hT,
      mul_div_assoc, div_self hPne, mul_one]
  · simp only [zero_add]
    rw [if_pos hP, jsNum_weighted_cancel _ _ hPne, finalStats_irrRate]

/-- Witness for `c2_singleton_amortizing` at the default loan. -/
theorem c2_singleton_amortizing_witness :
    ((createLoan 1).loanType = "amortizing" ∧ 0 < (createLoan 1).principal) ∧
      (portfolioTotals [createLoan 1]).totalInterest = (finalStats (createLoan 1)).interest ∧
      (portfolioTotals [createLoan 1]).effectiveRate =
        (finalStats (createLoan 1)).effectiveRate ∧
      (portfolioTotals [createLoan 1]).irrRate = (finalStats (createLoan 1)).irrRate :=
  ⟨⟨rfl, by norm_num [createLoan]⟩,
    c2_singleton_amortizing _ rfl (by norm_num [createLoan])⟩

/-! ### Import validation (claim C8) -/

theorem firstMissing_none_of_all (lj : Json) :
    ∀ ks : List String, (∀ k ∈ ks, (jsonGet? lj k).isNone = false) →
      firstMissingField lj ks = none := by
  intro ks
  induction ks with
  | nil => intro _; rfl
  | cons k t ih =>
    intro h
    rw [firstMissingField, if_neg (by simp [h k (List.mem_cons_self k t)])]
    exact ih fun k' hk' => h k' (List.mem_cons_of_mem _ hk')

theorem firstMissing_split (lj : Json) (k : String)
    (hmiss : (jsonGet? lj k).isNone = true) :
    ∀ (pre post : List String), (∀ k' ∈ pre, (jsonGet? lj k').isNone = false) →
      firstMissingField lj (pre ++ k :: post) = some k := by
  intro pre
  induction pre with
  | nil =>
    intro post _
    rw [List.nil_append, firstMissingField, if_pos (by simp [hmiss])]
  | cons k0 t ih =>
    intro post h
    rw [List.cons_append, firstMissingField,
      if_neg (by simp [h k0 (List.mem_cons_self k0 t)])]
    exact ih post fun k' hk' => h k' (List.mem_cons_of_mem _ hk')

theorem validateLoans_skip (restL : List Json) :
    ∀ (preL : List Json) (i : ℕ),
      (∀ lj ∈ preL, firstMissingField lj requiredFields = none) →
      validateLoans i (preL ++ restL) = validateLoans (i + preL.length) restL := by
  intro preL
  induction preL with
  | nil => intro i _; simp
  | cons lj t ih =>
    intro i h
    rw [List.cons_append, validateLoans]
    rw [h lj (List.mem_cons_self lj t)]
    rw [ih (i + 1) fun x hx => h x (List.mem_cons_of_mem _ hx)]
    have harith : i + 1 + t.length = i + (lj :: t).length := by
      simp only [List.length_cons]
      omega
    rw [harith]

/-- Claim C8: if the imported file's `loans` array has, at 0-based position
`preL.length`, a loan whose first missing required field (in the source's
field order) is `k`, while all earlier loans are complete, then the import
fails with exactly `Loan {i+1} is missing field "{k}".` (1-based index), and
the handler leaves the loans list and the active loan id untouched, recording
only the error message. -/
theorem c8_import_missing_field (parsed : Json) (loansArr preL restL : List Json)
    (loanJ : Json) (preK postK : List String) (k : String)
    (hloans : jsonGet? parsed "loans" = some (Json.arr loansArr))
    (hsplit : loansArr = preL ++ loanJ :: restL)
    (hpre : ∀ lj ∈ preL, ∀ k' ∈ requiredFields, (jsonGet? lj k').isNone = false)
    (hksplit : requiredFields = preK ++ k :: postK)
    (hkpre : ∀ k' ∈ preK, (jsonGet? loanJ k').isNone = false)
    (hmiss : (jsonGet? loanJ k).isNone = true) :
    importPortfolio parsed =
        Except.error s!"Loan {preL.length + 1} is missing field \"{k}\"." ∧
      ∀ st : ImportState, handleFileChange st parsed =
        some { st with importError := some s!"Loan {preL.length + 1} is missing field \"{k}\"." } := by
  have hfirst : firstMissingField loanJ requiredFields = some k := by
    rw [hksplit]
    exact firstMissing_split loanJ k hmiss preK postK hkpre
  have hval : validateLoans 0 loansArr =
      Except.error s!"Loan {preL.length + 1} is missing field \"{k}\"." := by
    rw [hsplit, validateLoans_skip (loanJ :: restL) preL 0
      (fun lj hlj => firstMissing_none_of_all lj requiredFields (hpre lj hlj)),
      validateLoans, hfirst]
    simp
  have himp : importPortfolio parsed =
      Except.error s!"Loan {preL.length + 1} is missing field \"{k}\"." := by
    rw [importPortfolio, hloans]
    simp only [hval]
  refine ⟨himp, fun st => ?_⟩
  rw [handleFileChange, himp]

/-- Witness for `c8_import_missing_field`: a single-loan file missing
`annualRate` fails naming loan 1 and that field, leaving the state's loans
and active id unchanged. -/
theorem c8_import_missing_field_witness :
    importPortfolio (Json.obj [("loans", Json.arr [Json.obj [("id", Json.num 1), ("name", Json.str "Loan 1"), ("principal", Json.num 1000), ("totalMonths", Json.num 60), ("graceMonths", Json.num 12), ("paymentFrequency", Json.num 3), ("loanType", Json.str "amortizing")]])]) =
        Except.error "Loan 1 is missing field \"annualRate\"." ∧
      handleFileChange ⟨[], Json.num 1, none, false⟩ (Json.obj [("loans", Json.arr [Json.obj [("id", Json.num 1), ("name", Json.str "Loan 1"), ("principal", Json.num 1000), ("totalMonths", Json.num 60), ("graceMonths", Json.num 12), ("paymentFrequency", Json.num 3), ("loanType", Json.str "amortizing")]])]) =
        some ⟨[], Json.num 1, some "Loan 1 is missing field \"annualRate\".", false⟩ := by
  have h := c8_import_missing_field
    (Json.obj [("loans", Json.arr [Json.obj [("id", Json.num 1), ("name", Json.str "Loan 1"), ("principal", Json.num 1000), ("totalMonths", Json.num 60), ("graceMonths", Json.num 12), ("paymentFrequency", Json.num 3), ("loanType", Json.str "amortizing")]])])
    [Json.obj [("id", Json.num 1), ("name", Json.str "Loan 1"), ("principal", Json.num 1000), ("totalMonths", Json.num 60), ("graceMonths", Json.num 12), ("paymentFrequency", Json.num 3), ("loanType", Json.str "amortizing")]]
    [] []
    (Json.obj [("id", Json.num 1), ("name", Json.str "Loan 1"), ("principal", Json.num 1000), ("totalMonths", Json.num 60), ("graceMonths", Json.num 12), ("paymentFrequency", Json.num 3), ("loanType", Json.str "amortizing")])
    ["id", "name", "principal", "totalMonths"]
    ["graceMonths", "paymentFrequency", "loanType"]
    "annualRate"
    rfl rfl
    (by intro lj hlj; exact absurd hlj (List.not_mem_nil lj))
    rfl
    (by intro k' hk'; fin_cases hk' <;> rfl)
    rfl
  exact ⟨h.1, h.2 ⟨[], Json.num 1, none, false⟩⟩

/-! ### Removing a loan (claim C9) -/

theorem filter_length_of_unique :
    ∀ (loans : List Loan) (id : ℤ),
      loans.Pairwise (fun a b => a.id ≠ b.id) → (∃ x ∈ loans, x.id = id) →
      (loans.filter (fun l => l.id != id)).length + 1 = loans.length := by
  intro loans id
  induction loans with
  | nil => intro _ hex; simp at hex
  | cons a t ih =>
    intro hpw hex
    have ha := (List.pairwise_cons.mp hpw).1
    have hpt := (List.pairwise_cons.mp hpw).2
    by_cases haid : a.id = id
    · have hkeep : t.filter (fun l => l.id != id) = t := by
        apply List.filter_eq_self.mpr
        intro b hb
        simp only [bne_iff_ne, ne_eq, decide_eq_true_eq]
        intro hbid
        exact ha b hb (by rw [haid, hbid])
      rw [List.filter_cons_of_neg (by simp [haid])]
      rw [hkeep, List.length_cons]
    · have hext : ∃ x ∈ t, x.id = id := by
        obtain ⟨x, hx, hxid⟩ := hex
        rcases List.mem_cons.mp hx with h | h
        · exact absurd (h ▸ hxid) haid
        · exact ⟨x, h, hxid⟩
      have hfilter : List.filter (fun l => l.id != id) (a :: t) =
          a :: List.filter (fun l => l.id != id) t := by
        simp [List.filter_cons, haid]
      rw [hfilter, List.length_cons, List.length_cons, ih hpt hext]

/-- Claim C9: `removeLoan(id)` is a no-op when only one loan remains;
otherwise (for distinct ids, and provided a loan with the given id exists) it
removes exactly that loan — one fewer loan, and membership is "was there and
has a different id" — and the active id is reassigned to the first surviving
loan exactly when the removed loan was the active one. -/
theorem c9_removeLoan (st : PortfolioState) (id : ℤ) :
    (st.loans.length = 1 → removeLoan st id = some st) ∧
      (2 ≤ st.loans.length →
        st.loans.Pairwise (fun a b => a.id ≠ b.id) →
        (∃ x ∈ st.loans, x.id = id) →
        ∃ st', removeLoan st id = some st' ∧
          st'.loans.length + 1 = st.loans.length ∧
          (∀ l, l ∈ st'.loans ↔ l ∈ st.loans ∧ l.id ≠ id) ∧
          (id = st.activeLoanId →
            ∃ l0, st'.loans.head? = some l0 ∧ st'.activeLoanId = l0.id) ∧
          (id ≠ st.activeLoanId → st'.activeLoanId = st.activeLoanId)) := by
  constructor
  · intro h1
    rw [removeLoan, if_pos h1]
  · intro h2 hpw hex
    have hlen1 : ¬st.loans.length = 1 := by omega
    have hflen := filter_length_of_unique st.loans id hpw hex
    have hmem : ∀ l, l ∈ st.loans.filter (fun l => l.id != id) ↔
        l ∈ st.loans ∧ l.id ≠ id := by
      intro l
      rw [List.mem_filter]
      simp [bne_iff_ne]
    by_cases hact : id = st.activeLoanId
    · have hne : st.loans.filter (fun l => l.id != id) ≠ [] := by
        intro hnil
        rw [hnil] at hflen
        simp at hflen
        omega
      obtain ⟨l0, hl0⟩ := Option.isSome_iff_exists.mp (List.head?_isSome.mpr hne)
      refine ⟨⟨st.loans.filter (fun l => l.id != id), l0.id⟩, ?_, ?_, hmem, ?_, ?_⟩
      · rw [removeLoan, if_neg hlen1]
        simp only [if_pos hact, hl0]
      · exact hflen
      · intro _
        exact ⟨l0, hl0, rfl⟩
      · intro h
        exact absurd hact h
    · refine ⟨⟨st.loans.filter (fun l => l.id != id), st.activeLoanId⟩, ?_, ?_, hmem, ?_, ?_⟩
      · rw [removeLoan, if_neg hlen1]
        simp only [if_neg hact]
      · exact hflen
      · intro h
        exact absurd h hact
      · intro _
        rfl

/-- Witness for `c9_removeLoan`: a singleton portfolio is untouched, and in a
two-loan portfolio removing the active loan 1 yields exactly one surviving
loan and reassigns the active id to it. -/
theorem c9_removeLoan_witness :
    removeLoan ⟨[createLoan 1], 1⟩ 1 = some ⟨[createLoan 1], 1⟩ ∧
      ∃ st', removeLoan ⟨[createLoan 1, createLoan 2], 1⟩ 1 = some st' ∧
        st'.loans.length + 1 =
          (⟨[createLoan 1, createLoan 2], 1⟩ : PortfolioState).loans.length ∧
        (∀ l, l ∈ st'.loans ↔
          l ∈ (⟨[createLoan 1, createLoan 2], 1⟩ : PortfolioState).loans ∧ l.id ≠ 1) ∧
        (1 = (⟨[createLoan 1, createLoan 2], 1⟩ : PortfolioState).activeLoanId →
          ∃ l0, st'.loans.head? = some l0 ∧ st'.activeLoanId = l0.id) ∧
        (1 ≠ (⟨[createLoan 1, createLoan 2], 1⟩ : PortfolioState).activeLoanId →
          st'.activeLoanId =
            (⟨[createLoan 1, createLoan 2], 1⟩ : PortfolioState).activeLoanId) :=
  ⟨(c9_removeLoan ⟨[createLoan 1], 1⟩ 1).1 rfl,
    (c9_removeLoan ⟨[createLoan 1, createLoan 2], 1⟩ 1).2 (by norm_num)
      (by
        refine List.pairwise_cons.mpr ⟨?_, List.pairwise_singleton _ _⟩
        intro b hb
        rcases List.mem_singleton.mp hb with h
        subst h
        decide)
      ⟨createLoan 1, List.mem_cons_self _ _, rfl⟩⟩
